import Mathlib

set_option maxRecDepth 100000

/-!
Verification development for the `write-hasher` crate (`src/lib.rs`): a
transparent hashing pass-through adapter `WriteHasher<D, T>` that wraps a byte
sink `T`, feeds every byte the sink reports as accepted into an incremental
hasher `D` (via the crate's `MinDigest` trait), and exposes the sink's own
interface in three I/O flavors (blocking `std::io::Write`, cooperative
`tokio::io::AsyncWrite`, cooperative `futures::io::AsyncWrite`).

Bytes are modelled as `Nat` (values below 256 where it matters), buffers as
`List Nat`, `io::Result<usize>` as `Except Nat Nat` (the error payload is an
abstract error code), `Poll<R>` as an explicit `Poll` inductive, and sinks as
deterministic state machines: a state type together with a step function for
each operation of the flavor's contract, returning the answer and the new
sink state.  The panicking slice `&buf[..n]` is modelled by an `Option`
(`none` = index out of bounds, i.e. a panic).
-/

namespace HashWriter

/-! ### CRC32C primitive

Modelled from the spec: the external `crc32c` crate's `crc32c_append` (not
part of this repository) is a stateless function computing the Castagnoli
CRC of `data` continued from the previous CRC value `seed`.  Standard
reflected bit-at-a-time formulation with polynomial `0x82F63B78` and
pre/post complement of the running value. -/

def crc32cPoly : Nat := 0x82F63B78

def crc32cStep (c : Nat) : Nat :=
  if c % 2 = 1 then (c / 2) ^^^ crc32cPoly else c / 2

def crc32cBits : Nat → Nat → Nat
  | 0, c => c
  | k + 1, c => crc32cBits k (crc32cStep c)

def crc32cByte (c b : Nat) : Nat :=
  crc32cBits 8 (c ^^^ (b % 256))

def crc32c_append (seed : Nat) (data : List Nat) : Nat :=
  (data.foldl crc32cByte (seed ^^^ 0xFFFFFFFF)) ^^^ 0xFFFFFFFF

/-- Sanity check of the CRC32C primitive: the standard check value of
CRC-32/ISCSI on the ASCII bytes of the string 123456789. -/
lemma crc32c_append_check_value :
    crc32c_append 0 [49, 50, 51, 52, 53, 54, 55, 56, 57] = 0xE3069283 := by
  decide

/-! ### The in-tree CRC32C hash (`mod crc32c`, src/lib.rs lines 252-273) -/

/-- `pub struct Crc32c(u32)` — a single 32-bit seed. -/
structure Crc32c where
  seed : Nat
deriving DecidableEq, Repr

/-- `#[derive(Default)]`: the `u32` field defaults to 0. -/
def Crc32c.mkDefault : Crc32c := ⟨0⟩

/-- `Crc32c::new()` — `Default::default()`. -/
def Crc32c.new : Crc32c := Crc32c.mkDefault

/-- `MinDigest::update` for `Crc32c`:
`self.0 = crc32c::crc32c_append(self.0, data.as_ref())`. -/
def Crc32c.update (c : Crc32c) (data : List Nat) : Crc32c :=
  ⟨crc32c_append c.seed data⟩

/-- `MinDigest::finalize` for `Crc32c`: returns the seed. -/
def Crc32c.finalize (c : Crc32c) : Nat :=
  c.seed

/-! ### The `MinDigest` trait (src/lib.rs lines 95-99)

A trait is modelled as a bundle of its two operations for a state type `D`
with digest type `Out`.  `update` takes the byte view, `finalize` consumes
the state. -/

structure MinDigest (D : Type) (Out : Type) where
  update : D → List Nat → D
  finalize : D → Out

/-- The `impl MinDigest for Crc32c` bundle. -/
def crc32cMinDigest : MinDigest Crc32c Nat :=
  ⟨Crc32c.update, Crc32c.finalize⟩

/-- A transcript hasher used to observe exactly which bytes a run feeds to
the hasher: the state is the list of bytes received so far, `update`
appends, `finalize` returns the transcript. -/
def mdLog : MinDigest (List Nat) (List Nat) :=
  ⟨fun l b => l ++ b, fun l => l⟩

/-! ### The adapter `WriteHasher<D, T>` (src/lib.rs lines 54-74) -/

structure WriteHasher (D : Type) (T : Type) where
  hasher : D
  inner : T
deriving DecidableEq, Repr

/-- `WriteHasher::new_with_hasher(inner, hasher)`. -/
def WriteHasher.new_with_hasher {D T : Type} (inner : T) (hasher : D) :
    WriteHasher D T :=
  ⟨hasher, inner⟩

/-- The generic `WriteHasher::new(inner)` (src/lib.rs lines 65-73), whose
`D : Default` bound is modelled by passing the default value explicitly. -/
def WriteHasher.new {D T : Type} (inner : T) (dflt : D) : WriteHasher D T :=
  ⟨dflt, inner⟩

/-- `impl<MD: MinDigest, T> MinDigest for WriteHasher<MD, T>`
(src/lib.rs lines 101-109): `update` feeds the wrapped hasher directly,
`finalize` consumes the adapter and finalizes the wrapped hasher.  The inner
sink is never consulted. -/
def writeHasherMinDigest {D Out T : Type} (md : MinDigest D Out) :
    MinDigest (WriteHasher D T) Out :=
  ⟨fun wh data => ⟨md.update wh.hasher data, wh.inner⟩,
   fun wh => md.finalize wh.hasher⟩

/-- The slice `&buf[..n]`: the first `n` bytes when `n ≤ buf.length`,
`none` (a panic) otherwise. -/
def sliceIdx (buf : List Nat) (n : Nat) : Option (List Nat) :=
  if n ≤ buf.length then some (buf.take n) else none

/-! ### Blocking flavor: `impl std::io::Write for WriteHasher`
(src/lib.rs lines 341-352)

A blocking sink (`std::io::Write` consumed contract) is a state `S` with a
`write` step returning `io::Result<usize>` and a `flush` step returning
`io::Result<()>`. -/

structure WSink (S : Type) where
  write : S → List Nat → Except Nat Nat × S
  flush : S → Except Nat Unit × S

/-- `WriteHasher::write` (blocking):
`let r = self.inner.write(buf); if let Ok(n) = r { self.hasher.update(&buf[..n]); } r`.
The `Option` layer records the possible slice panic when the sink reports
`n > buf.length`. -/
def WriteHasher.write {D Out S : Type} (md : MinDigest D Out) (sink : WSink S)
    (wh : WriteHasher D S) (buf : List Nat) :
    Option (Except Nat Nat × WriteHasher D S) :=
  match sink.write wh.inner buf with
  | (Except.ok n, inner₂) =>
      (sliceIdx buf n).map
        (fun pre => (Except.ok n, ⟨md.update wh.hasher pre, inner₂⟩))
  | (Except.error e, inner₂) => some (Except.error e, ⟨wh.hasher, inner₂⟩)

/-- `WriteHasher::flush` (blocking): `self.inner.flush()`, pure passthrough. -/
def WriteHasher.flush {D S : Type} (sink : WSink S) (wh : WriteHasher D S) :
    Except Nat Unit × WriteHasher D S :=
  let rs := sink.flush wh.inner
  (rs.1, ⟨wh.hasher, rs.2⟩)

lemma write_ok_of {D Out S : Type} (md : MinDigest D Out) (sink : WSink S)
    (wh : WriteHasher D S) (buf : List Nat) (n : Nat) (s₂ : S)
    (h : sink.write wh.inner buf = (Except.ok n, s₂)) (hn : n ≤ buf.length) :
    WriteHasher.write md sink wh buf
      = some (Except.ok n, ⟨md.update wh.hasher (buf.take n), s₂⟩) := by
  unfold WriteHasher.write
  rw [h]
  simp [sliceIdx, hn]

lemma write_err_of {D Out S : Type} (md : MinDigest D Out) (sink : WSink S)
    (wh : WriteHasher D S) (buf : List Nat) (e : Nat) (s₂ : S)
    (h : sink.write wh.inner buf = (Except.error e, s₂)) :
    WriteHasher.write md sink wh buf
      = some (Except.error e, ⟨wh.hasher, s₂⟩) := by
  unfold WriteHasher.write
  rw [h]

lemma write_oob_of {D Out S : Type} (md : MinDigest D Out) (sink : WSink S)
    (wh : WriteHasher D S) (buf : List Nat) (n : Nat) (s₂ : S)
    (h : sink.write wh.inner buf = (Except.ok n, s₂)) (hn : buf.length < n) :
    WriteHasher.write md sink wh buf = none := by
  unfold WriteHasher.write
  rw [h]
  simp [sliceIdx, Nat.not_le.mpr hn]

/-! ### Cooperative flavors

`Poll<A>` from `core::task`. -/

inductive Poll (A : Type) where
  | pending : Poll A
  | ready : A → Poll A
deriving DecidableEq, Repr

/-- A `tokio::io::AsyncWrite` sink (consumed contract): deterministic steps
for `poll_write`, `poll_flush`, `poll_shutdown`. -/
structure AsyncWriteT (S : Type) where
  pollWrite : S → List Nat → Poll (Except Nat Nat) × S
  pollFlush : S → Poll (Except Nat Unit) × S
  pollShutdown : S → Poll (Except Nat Unit) × S

/-- A `futures::io::AsyncWrite` sink (consumed contract): deterministic steps
for `poll_write`, `poll_flush`, `poll_close`. -/
structure AsyncWriteF (S : Type) where
  pollWrite : S → List Nat → Poll (Except Nat Nat) × S
  pollFlush : S → Poll (Except Nat Unit) × S
  pollClose : S → Poll (Except Nat Unit) × S

/-- `WriteHasher::poll_write` of the tokio impl (src/lib.rs lines 280-291):
`let r = inner.poll_write(cx, buf); if let Poll::Ready(Ok(n)) = r { hasher.update(&buf[..n]); } r`. -/
def tokioPollWrite {D Out S : Type} (md : MinDigest D Out)
    (sink : AsyncWriteT S) (wh : WriteHasher D S) (buf : List Nat) :
    Option (Poll (Except Nat Nat) × WriteHasher D S) :=
  match sink.pollWrite wh.inner buf with
  | (Poll.ready (Except.ok n), inner₂) =>
      (sliceIdx buf n).map
        (fun pre => (Poll.ready (Except.ok n), ⟨md.update wh.hasher pre, inner₂⟩))
  | (r, inner₂) => some (r, ⟨wh.hasher, inner₂⟩)

/-- `WriteHasher::poll_flush` of the tokio impl (src/lib.rs lines 292-298):
pure passthrough to `inner.poll_flush`. -/
def tokioPollFlush {D S : Type} (sink : AsyncWriteT S) (wh : WriteHasher D S) :
    Poll (Except Nat Unit) × WriteHasher D S :=
  let rs := sink.pollFlush wh.inner
  (rs.1, ⟨wh.hasher, rs.2⟩)

/-- `WriteHasher::poll_shutdown` of the tokio impl (src/lib.rs lines
299-305): pure passthrough to `inner.poll_shutdown`. -/
def tokioPollShutdown {D S : Type} (sink : AsyncWriteT S)
    (wh : WriteHasher D S) : Poll (Except Nat Unit) × WriteHasher D S :=
  let rs := sink.pollShutdown wh.inner
  (rs.1, ⟨wh.hasher, rs.2⟩)

/-- `WriteHasher::poll_write` of the futures impl (src/lib.rs lines
312-323): same shape as the tokio one. -/
def futuresPollWrite {D Out S : Type} (md : MinDigest D Out)
    (sink : AsyncWriteF S) (wh : WriteHasher D S) (buf : List Nat) :
    Option (Poll (Except Nat Nat) × WriteHasher D S) :=
  match sink.pollWrite wh.inner buf with
  | (Poll.ready (Except.ok n), inner₂) =>
      (sliceIdx buf n).map
        (fun pre => (Poll.ready (Except.ok n), ⟨md.update wh.hasher pre, inner₂⟩))
  | (r, inner₂) => some (r, ⟨wh.hasher, inner₂⟩)

/-- `WriteHasher::poll_flush` of the futures impl (src/lib.rs lines
324-330): pure passthrough. -/
def futuresPollFlush {D S : Type} (sink : AsyncWriteF S)
    (wh : WriteHasher D S) : Poll (Except Nat Unit) × WriteHasher D S :=
  let rs := sink.pollFlush wh.inner
  (rs.1, ⟨wh.hasher, rs.2⟩)

/-- `WriteHasher::poll_close` of the futures impl (src/lib.rs lines
331-337): pure passthrough. -/
def futuresPollClose {D S : Type} (sink : AsyncWriteF S)
    (wh : WriteHasher D S) : Poll (Except Nat Unit) × WriteHasher D S :=
  let rs := sink.pollClose wh.inner
  (rs.1, ⟨wh.hasher, rs.2⟩)

lemma tokioPollWrite_ok {D Out S : Type} (md : MinDigest D Out)
    (sink : AsyncWriteT S) (wh : WriteHasher D S) (buf : List Nat) (n : Nat)
    (s₂ : S) (h : sink.pollWrite wh.inner buf = (Poll.ready (Except.ok n), s₂))
    (hn : n ≤ buf.length) :
    tokioPollWrite md sink wh buf
      = some (Poll.ready (Except.ok n),
              ⟨md.update wh.hasher (buf.take n), s₂⟩) := by
  unfold tokioPollWrite
  rw [h]
  simp [sliceIdx, hn]

lemma tokioPollWrite_err {D Out S : Type} (md : MinDigest D Out)
    (sink : AsyncWriteT S) (wh : WriteHasher D S) (buf : List Nat) (e : Nat)
    (s₂ : S)
    (h : sink.pollWrite wh.inner buf = (Poll.ready (Except.error e), s₂)) :
    tokioPollWrite md sink wh buf
      = some (Poll.ready (Except.error e), ⟨wh.hasher, s₂⟩) := by
  unfold tokioPollWrite
  rw [h]

lemma tokioPollWrite_pending {D Out S : Type} (md : MinDigest D Out)
    (sink : AsyncWriteT S) (wh : WriteHasher D S) (buf : List Nat) (s₂ : S)
    (h : sink.pollWrite wh.inner buf = (Poll.pending, s₂)) :
    tokioPollWrite md sink wh buf = some (Poll.pending, ⟨wh.hasher, s₂⟩) := by
  unfold tokioPollWrite
  rw [h]

lemma futuresPollWrite_ok {D Out S : Type} (md : MinDigest D Out)
    (sink : AsyncWriteF S) (wh : WriteHasher D S) (buf : List Nat) (n : Nat)
    (s₂ : S) (h : sink.pollWrite wh.inner buf = (Poll.ready (Except.ok n), s₂))
    (hn : n ≤ buf.length) :
    futuresPollWrite md sink wh buf
      = some (Poll.ready (Except.ok n),
              ⟨md.update wh.hasher (buf.take n), s₂⟩) := by
  unfold futuresPollWrite
  rw [h]
  simp [sliceIdx, hn]

lemma futuresPollWrite_err {D Out S : Type} (md : MinDigest D Out)
    (sink : AsyncWriteF S) (wh : WriteHasher D S) (buf : List Nat) (e : Nat)
    (s₂ : S)
    (h : sink.pollWrite wh.inner buf = (Poll.ready (Except.error e), s₂)) :
    futuresPollWrite md sink wh buf
      = some (Poll.ready (Except.error e), ⟨wh.hasher, s₂⟩) := by
  unfold futuresPollWrite
  rw [h]

lemma futuresPollWrite_pending {D Out S : Type} (md : MinDigest D Out)
    (sink : AsyncWriteF S) (wh : WriteHasher D S) (buf : List Nat) (s₂ : S)
    (h : sink.pollWrite wh.inner buf = (Poll.pending, s₂)) :
    futuresPollWrite md sink wh buf = some (Poll.pending, ⟨wh.hasher, s₂⟩) := by
  unfold futuresPollWrite
  rw [h]

/-! ### Operation sequences and runs -/

/-- One caller-visible operation on a cooperative-flavor adapter: a write of
a buffer, a flush, or a close (tokio `poll_shutdown` / futures
`poll_close`). -/
inductive WOp where
  | write : List Nat → WOp
  | flush : WOp
  | close : WOp
deriving DecidableEq, Repr

/-- One caller-visible operation on a blocking-flavor adapter. -/
inductive StdOp where
  | write : List Nat → StdOp
  | flush : StdOp
deriving DecidableEq, Repr

/-- Run a sequence of operations through the tokio flavor.  `none` means a
write panicked (the sink reported an accepted count beyond the buffer). -/
def runTokio {D Out S : Type} (md : MinDigest D Out) (sink : AsyncWriteT S) :
    WriteHasher D S → List WOp → Option (WriteHasher D S)
  | wh, [] => some wh
  | wh, WOp.write buf :: ops =>
      match tokioPollWrite md sink wh buf with
      | some p => runTokio md sink p.2 ops
      | none => none
  | wh, WOp.flush :: ops => runTokio md sink (tokioPollFlush sink wh).2 ops
  | wh, WOp.close :: ops => runTokio md sink (tokioPollShutdown sink wh).2 ops

/-- Run a sequence of operations through the futures flavor. -/
def runFutures {D Out S : Type} (md : MinDigest D Out) (sink : AsyncWriteF S) :
    WriteHasher D S → List WOp → Option (WriteHasher D S)
  | wh, [] => some wh
  | wh, WOp.write buf :: ops =>
      match futuresPollWrite md sink wh buf with
      | some p => runFutures md sink p.2 ops
      | none => none
  | wh, WOp.flush :: ops => runFutures md sink (futuresPollFlush sink wh).2 ops
  | wh, WOp.close :: ops => runFutures md sink (futuresPollClose sink wh).2 ops

/-- Run a sequence of operations through the blocking flavor. -/
def runStdio {D Out S : Type} (md : MinDigest D Out) (sink : WSink S) :
    WriteHasher D S → List StdOp → Option (WriteHasher D S)
  | wh, [] => some wh
  | wh, StdOp.write buf :: ops =>
      match WriteHasher.write md sink wh buf with
      | some p => runStdio md sink p.2 ops
      | none => none
  | wh, StdOp.flush :: ops => runStdio md sink (WriteHasher.flush sink wh).2 ops

/-- The chunks the inner tokio sink reports as accepted along a run: for
each write answered `Ready(Ok n)` the prefix `buf.take n`; writes answered
`Pending` or `Ready(Err)` and flush/close operations contribute nothing. -/
def acceptedChunksT {S : Type} (sink : AsyncWriteT S) :
    S → List WOp → List (List Nat)
  | _, [] => []
  | s, WOp.write buf :: ops =>
      match sink.pollWrite s buf with
      | (Poll.ready (Except.ok n), s₂) => buf.take n :: acceptedChunksT sink s₂ ops
      | (_, s₂) => acceptedChunksT sink s₂ ops
  | s, WOp.flush :: ops => acceptedChunksT sink (sink.pollFlush s).2 ops
  | s, WOp.close :: ops => acceptedChunksT sink (sink.pollShutdown s).2 ops

/-- The chunks the inner blocking sink reports as accepted along a run. -/
def acceptedChunksB {S : Type} (sink : WSink S) :
    S → List StdOp → List (List Nat)
  | _, [] => []
  | s, StdOp.write buf :: ops =>
      match sink.write s buf with
      | (Except.ok n, s₂) => buf.take n :: acceptedChunksB sink s₂ ops
      | (_, s₂) => acceptedChunksB sink s₂ ops
  | s, StdOp.flush :: ops => acceptedChunksB sink (sink.flush s).2 ops

/-- A tokio sink respects the `poll_write` contract: an accepted count never
exceeds the offered buffer's length. -/
def boundedT {S : Type} (sink : AsyncWriteT S) : Prop :=
  ∀ s buf n s₂,
    sink.pollWrite s buf = (Poll.ready (Except.ok n), s₂) → n ≤ buf.length

/-- A blocking sink respects the `write` contract. -/
def boundedB {S : Type} (sink : WSink S) : Prop :=
  ∀ s buf n s₂, sink.write s buf = (Except.ok n, s₂) → n ≤ buf.length

lemma runTokio_hasher {D Out S : Type} (md : MinDigest D Out)
    (sink : AsyncWriteT S) (hb : boundedT sink) :
    ∀ (ops : List WOp) (d : D) (s : S),
      (runTokio md sink ⟨d, s⟩ ops).map WriteHasher.hasher
        = some (List.foldl md.update d (acceptedChunksT sink s ops)) := by
  intro ops
  induction ops with
  | nil => intro d s; simp [runTokio, acceptedChunksT]
  | cons op ops ih =>
    intro d s
    cases op with
    | write buf =>
        rcases hsw : sink.pollWrite s buf with ⟨r, s₂⟩
        have hsw' : sink.pollWrite (WriteHasher.mk d s).inner buf = (r, s₂) := hsw
        cases r with
        | pending =>
            rw [runTokio]
            rw [tokioPollWrite_pending md sink ⟨d, s⟩ buf s₂ hsw']
            rw [acceptedChunksT, hsw]
            exact ih d s₂
        | ready res =>
            cases res with
            | ok n =>
                rw [runTokio]
                rw [tokioPollWrite_ok md sink ⟨d, s⟩ buf n s₂ hsw'
                  (hb s buf n s₂ hsw)]
                rw [acceptedChunksT, hsw]
                simpa using ih (md.update d (buf.take n)) s₂
            | error e =>
                rw [runTokio]
                rw [tokioPollWrite_err md sink ⟨d, s⟩ buf e s₂ hsw']
                rw [acceptedChunksT, hsw]
                exact ih d s₂
    | flush =>
        rw [runTokio, acceptedChunksT]
        exact ih d (sink.pollFlush s).2
    | close =>
        rw [runTokio, acceptedChunksT]
        exact ih d (sink.pollShutdown s).2

lemma runStdio_hasher {D Out S : Type} (md : MinDigest D Out)
    (sink : WSink S) (hb : boundedB sink) :
    ∀ (ops : List StdOp) (d : D) (s : S),
      (runStdio md sink ⟨d, s⟩ ops).map WriteHasher.hasher
        = some (List.foldl md.update d (acceptedChunksB sink s ops)) := by
  intro ops
  induction ops with
  | nil => intro d s; simp [runStdio, acceptedChunksB]
  | cons op ops ih =>
    intro d s
    cases op with
    | write buf =>
        rcases hsw : sink.write s buf with ⟨r, s₂⟩
        have hsw' : sink.write (WriteHasher.mk d s).inner buf = (r, s₂) := hsw
        cases r with
        | ok n =>
            rw [runStdio]
            rw [write_ok_of md sink ⟨d, s⟩ buf n s₂ hsw' (hb s buf n s₂ hsw)]
            rw [acceptedChunksB, hsw]
            simpa using ih (md.update d (buf.take n)) s₂
        | error e =>
            rw [runStdio]
            rw [write_err_of md sink ⟨d, s⟩ buf e s₂ hsw']
            rw [acceptedChunksB, hsw]
            exact ih d s₂
    | flush =>
        rw [runStdio, acceptedChunksB]
        exact ih d (sink.flush s).2

lemma foldl_append_eq_flatten :
    ∀ (L : List (List Nat)) (a : List Nat),
      List.foldl (fun x y => x ++ y) a L = a ++ L.flatten := by
  intro L
  induction L with
  | nil => intro a; simp
  | cons b L ih => intro a; simp [List.foldl, ih, List.append_assoc]

/-- Erase every flush/close operation from a sequence, keeping the writes. -/
def dropFlushes : List WOp → List WOp
  | [] => []
  | WOp.write buf :: ops => WOp.write buf :: dropFlushes ops
  | WOp.flush :: ops => dropFlushes ops
  | WOp.close :: ops => dropFlushes ops

lemma runTokio_dropFlushes {D Out S : Type} (md : MinDigest D Out)
    (sink : AsyncWriteT S) (hf : ∀ s, (sink.pollFlush s).2 = s)
    (hc : ∀ s, (sink.pollShutdown s).2 = s) :
    ∀ (ops : List WOp) (wh : WriteHasher D S),
      runTokio md sink wh ops = runTokio md sink wh (dropFlushes ops) := by
  intro ops
  induction ops with
  | nil => intro wh; rfl
  | cons op ops ih =>
    intro wh
    cases op with
    | write buf =>
        rw [dropFlushes, runTokio, runTokio]
        cases tokioPollWrite md sink wh buf with
        | none => rfl
        | some p => exact ih p.2
    | flush =>
        rw [dropFlushes, runTokio]
        have : (tokioPollFlush sink wh).2 = wh := by
          simp [tokioPollFlush, hf]
        rw [this]
        exact ih wh
    | close =>
        rw [dropFlushes, runTokio]
        have : (tokioPollShutdown sink wh).2 = wh := by
          simp [tokioPollShutdown, hc]
        rw [this]
        exact ih wh

/-! ### Concrete sinks used as test inputs -/

/-- A blocking sink that accepts every offered byte. -/
def sinkAllB : WSink Unit :=
  ⟨fun s buf => (Except.ok buf.length, s), fun s => (Except.ok (), s)⟩

/-- A blocking sink that always fails with error code 7. -/
def errSinkB : WSink Unit :=
  ⟨fun s _ => (Except.error 7, s), fun s => (Except.ok (), s)⟩

/-- A blocking sink that reports one more byte accepted than was offered,
violating the `write` contract. -/
def oobSink : WSink Unit :=
  ⟨fun s buf => (Except.ok (buf.length + 1), s), fun s => (Except.ok (), s)⟩

/-- A tokio sink that accepts every offered byte. -/
def sinkAllT : AsyncWriteT Unit :=
  ⟨fun s buf => (Poll.ready (Except.ok buf.length), s),
   fun s => (Poll.ready (Except.ok ()), s),
   fun s => (Poll.ready (Except.ok ()), s)⟩

/-- A tokio sink that always fails with error code 7. -/
def errSinkT : AsyncWriteT Unit :=
  ⟨fun s _ => (Poll.ready (Except.error 7), s),
   fun s => (Poll.ready (Except.ok ()), s),
   fun s => (Poll.ready (Except.ok ()), s)⟩

/-- A tokio sink that is never ready. -/
def pendSinkT : AsyncWriteT Unit :=
  ⟨fun s _ => (Poll.pending, s),
   fun s => (Poll.pending, s),
   fun s => (Poll.pending, s)⟩

/-- A futures sink that accepts every offered byte. -/
def sinkAllF : AsyncWriteF Unit :=
  ⟨fun s buf => (Poll.ready (Except.ok buf.length), s),
   fun s => (Poll.ready (Except.ok ()), s),
   fun s => (Poll.ready (Except.ok ()), s)⟩

/-- A futures sink that always fails with error code 9. -/
def errSinkF : AsyncWriteF Unit :=
  ⟨fun s _ => (Poll.ready (Except.error 9), s),
   fun s => (Poll.ready (Except.ok ()), s),
   fun s => (Poll.ready (Except.ok ()), s)⟩

/-- A futures sink that is never ready. -/
def pendSinkF : AsyncWriteF Unit :=
  ⟨fun s _ => (Poll.pending, s),
   fun s => (Poll.pending, s),
   fun s => (Poll.pending, s)⟩

/-- A tokio sink with a closed flag: `poll_shutdown` sets the flag, and once
it is set every `poll_write` answers `Ready(Err)`. -/
def closeSink : AsyncWriteT Bool :=
  ⟨fun s buf =>
     (if s then Poll.ready (Except.error 0) else Poll.ready (Except.ok buf.length), s),
   fun s => (Poll.ready (Except.ok ()), s),
   fun _ => (Poll.ready (Except.ok ()), true)⟩

lemma runStdio_sinkAll {D Out : Type} (md : MinDigest D Out) :
    ∀ (bufs : List (List Nat)) (d : D),
      runStdio md sinkAllB ⟨d, ()⟩ (bufs.map StdOp.write)
        = some ⟨List.foldl md.update d bufs, ()⟩ := by
  intro bufs
  induction bufs with
  | nil => intro d; rfl
  | cons buf bufs ih =>
    intro d
    rw [List.map, runStdio]
    rw [write_ok_of md sinkAllB ⟨d, ()⟩ buf buf.length () rfl (Nat.le_refl _)]
    simpa [List.take_length] using ih (md.update d buf)

lemma runTokio_sinkAll {D Out : Type} (md : MinDigest D Out) :
    ∀ (bufs : List (List Nat)) (d : D),
      runTokio md sinkAllT ⟨d, ()⟩ (bufs.map WOp.write)
        = some ⟨List.foldl md.update d bufs, ()⟩ := by
  intro bufs
  induction bufs with
  | nil => intro d; rfl
  | cons buf bufs ih =>
    intro d
    rw [List.map, runTokio]
    rw [tokioPollWrite_ok md sinkAllT ⟨d, ()⟩ buf buf.length () rfl
      (Nat.le_refl _)]
    simpa [List.take_length] using ih (md.update d buf)

lemma runFutures_sinkAll {D Out : Type} (md : MinDigest D Out) :
    ∀ (bufs : List (List Nat)) (d : D),
      runFutures md sinkAllF ⟨d, ()⟩ (bufs.map WOp.write)
        = some ⟨List.foldl md.update d bufs, ()⟩ := by
  intro bufs
  induction bufs with
  | nil => intro d; rfl
  | cons buf bufs ih =>
    intro d
    rw [List.map, runFutures]
    rw [futuresPollWrite_ok md sinkAllF ⟨d, ()⟩ buf buf.length () rfl
      (Nat.le_refl _)]
    simpa [List.take_length] using ih (md.update d buf)

/-! ### Build configuration (Cargo features) and the build-time gate -/

/-- The recognized build-time options of the crate. -/
structure Cfg where
  digest : Bool
  concrete_impls : Bool
  sha1 : Bool
  sha2 : Bool
  md2 : Bool
  md4 : Bool
  md5 : Bool
  blake2 : Bool
  crc32fast : Bool
  crc32c : Bool
  stdio : Bool
  tokio : Bool
  futures : Bool
deriving DecidableEq, Repr

/-- The `compile_error!` gate (src/lib.rs lines 27-42): the build is rejected
exactly when `digest` is enabled together with any of `concrete_impls`,
`sha1`, `sha2`, `md2`, `md4`, `md5`, `blake2`, `crc32fast`.  The `crc32c`
option does not appear in the gate (the `crc32c` module's feature gate is
commented out and the module is compiled unconditionally). -/
def rejectedAtBuildTime (c : Cfg) : Bool :=
  c.digest && (c.concrete_impls || c.sha1 || c.sha2 || c.md2 || c.md4
    || c.md5 || c.blake2 || c.crc32fast)

/-- The configuration that enables exactly `digest` and `crc32c`. -/
def cfgDigestCrc32c : Cfg :=
  ⟨true, false, false, false, false, false, false, false, false, true,
   false, false, false⟩

/-- The configuration that enables exactly `sha2` and `stdio`. -/
def cfgSha2Stdio : Cfg :=
  ⟨false, false, false, true, false, false, false, false, false, false,
   true, false, false⟩

/-! ### Concrete hash types and the two `new` construction forms -/

/-- The concrete hash types bridged by the crate. -/
inductive HashTy where
  | sha1 | sha224 | sha256 | sha384 | sha512 | sha512_224 | sha512_256
  | md2 | md4 | md5Context | blake2b512 | blake2s256
  | crc32fastHasher | crc32c
deriving DecidableEq, Repr

/-- Whether the algorithm-specific `new` form — the inherent
`impl<T> WriteHasher<$x, T> { pub fn new }` generated by
`delegate_digest_mindigest!` (src/lib.rs lines 143-150) or written by hand
for `md5::Context` (lines 200-207) and `crc32fast::Hasher` (lines 241-248)
— is compiled under configuration `c` for hash type `h`.  The in-tree
`crc32c::Crc32c` module defines no such `WriteHasher` constructor. -/
def specificNewDefined (c : Cfg) : HashTy → Bool
  | HashTy.sha1 => c.sha1
  | HashTy.sha224 => c.sha2
  | HashTy.sha256 => c.sha2
  | HashTy.sha384 => c.sha2
  | HashTy.sha512 => c.sha2
  | HashTy.sha512_224 => c.sha2
  | HashTy.sha512_256 => c.sha2
  | HashTy.md2 => c.md2
  | HashTy.md4 => c.md4
  | HashTy.md5Context => c.md5
  | HashTy.blake2b512 => c.blake2
  | HashTy.blake2s256 => c.blake2
  | HashTy.crc32fastHasher => c.crc32fast
  | HashTy.crc32c => false

/-- Whether the generic default-initial-state `new` form — the inherent
`impl<D, T> WriteHasher<D, T> { pub fn new where D: Default }`
(src/lib.rs lines 60-74) — is compiled under configuration `c` for hash
type `h`.  That impl block carries no feature gate and its self type covers
every hash type, so the form is always defined. -/
def genericNewDefined (_c : Cfg) (_h : HashTy) : Bool :=
  true

/-- How many `new` construction forms are defined for `WriteHasher<h, T>`
under configuration `c`. -/
def newFormsDefined (c : Cfg) (h : HashTy) : Nat :=
  (if genericNewDefined c h then 1 else 0)
    + (if specificNewDefined c h then 1 else 0)

lemma sinkAllB_bounded : boundedB sinkAllB := by
  intro s buf n s₂ h
  simp [sinkAllB] at h
  omega

lemma sinkAllT_bounded : boundedT sinkAllT := by
  intro s buf n s₂ h
  simp [sinkAllT] at h
  omega

/-! ### Claim theorems -/

/-- C1: the blocking `write(buf)` delegates to the inner sink's write of the
same buffer; when the inner sink answers `Ok n` with `n ≤ buf.length`, the
hasher is updated with exactly `buf[0..n]` and the same `Ok n` is returned;
when the inner sink answers an error, the hasher is unchanged and the error
is returned unchanged (no new error kinds are introduced). -/
theorem C1_write_delegation (D Out S : Type) (md : MinDigest D Out)
    (sink : WSink S) (wh : WriteHasher D S) (buf : List Nat) :
    (∀ n s₂, sink.write wh.inner buf = (Except.ok n, s₂) → n ≤ buf.length →
      WriteHasher.write md sink wh buf
        = some (Except.ok n, ⟨md.update wh.hasher (buf.take n), s₂⟩))
    ∧ (∀ e s₂, sink.write wh.inner buf = (Except.error e, s₂) →
      WriteHasher.write md sink wh buf
        = some (Except.error e, ⟨wh.hasher, s₂⟩)) :=
  ⟨fun n s₂ h hn => write_ok_of md sink wh buf n s₂ h hn,
   fun e s₂ h => write_err_of md sink wh buf e s₂ h⟩

/-- Witness for C1 at concrete inputs: a full write through the accept-all
sink and an error through the always-failing sink. -/
theorem C1_write_delegation_witness :
    WriteHasher.write mdLog sinkAllB ⟨[], ()⟩ [1, 2, 3]
      = some (Except.ok 3, ⟨[1, 2, 3], ()⟩)
    ∧ WriteHasher.write mdLog errSinkB ⟨[], ()⟩ [1, 2]
      = some (Except.error 7, ⟨[], ()⟩) :=
  ⟨(C1_write_delegation _ _ _ mdLog sinkAllB ⟨[], ()⟩ [1, 2, 3]).1 3 () rfl
      (by decide),
   (C1_write_delegation _ _ _ mdLog errSinkB ⟨[], ()⟩ [1, 2]).2 7 () rfl⟩

/-- C2: along any finite sequence of write/flush/close operations on a
fresh-or-arbitrary adapter over a contract-respecting inner sink, the hasher
receives exactly the accepted prefixes `buf.take n` of the successful
writes, in order (stated as a fold of `update` over the accepted chunks, for
both the tokio and the blocking flavor); with the transcript hasher the
final hasher state is literally the concatenation of those prefixes.
Writes answered `Pending` or with an error contribute no bytes. -/
theorem C2_hashed_equals_accepted (D Out S S₂ : Type) (md : MinDigest D Out)
    (tsink : AsyncWriteT S) (bsink : WSink S₂) (d : D) (s : S) (t : S₂)
    (ops : List WOp) (bops : List StdOp) :
    (boundedT tsink →
      (runTokio md tsink ⟨d, s⟩ ops).map WriteHasher.hasher
        = some (List.foldl md.update d (acceptedChunksT tsink s ops)))
    ∧ (boundedB bsink →
      (runStdio md bsink ⟨d, t⟩ bops).map WriteHasher.hasher
        = some (List.foldl md.update d (acceptedChunksB bsink t bops)))
    ∧ (boundedT tsink →
      (runTokio mdLog tsink ⟨[], s⟩ ops).map WriteHasher.hasher
        = some (acceptedChunksT tsink s ops).flatten) := by
  refine ⟨fun hb => runTokio_hasher md tsink hb ops d s,
          fun hb => runStdio_hasher md bsink hb bops d t,
          fun hb => ?_⟩
  have h := runTokio_hasher mdLog tsink hb ops [] s
  rw [h]
  simp [mdLog, foldl_append_eq_flatten]

/-- Witness for C2 at a concrete run: two writes with a flush in between
through the accept-all tokio sink. -/
theorem C2_hashed_equals_accepted_witness :
    (runTokio mdLog sinkAllT ⟨[], ()⟩
        [WOp.write [1, 2], WOp.flush, WOp.write [3]]).map WriteHasher.hasher
      = some (List.foldl mdLog.update []
          (acceptedChunksT sinkAllT ()
            [WOp.write [1, 2], WOp.flush, WOp.write [3]])) :=
  (C2_hashed_equals_accepted _ _ _ _ mdLog sinkAllT sinkAllB [] () ()
      [WOp.write [1, 2], WOp.flush, WOp.write [3]] []).1 sinkAllT_bounded

/-- C3 counterexample: the claim's consequence — inserting flush/close
operations between writes never alters the digest — fails on the code for a
sink whose `poll_shutdown` makes subsequent writes fail: with the transcript
hasher, closing before writing `[7]` yields digest `[]`, while the run
without the inserted close yields digest `[7]`. -/
theorem C3_digest_changed_by_close :
    (runTokio mdLog closeSink ⟨[], false⟩ [WOp.close, WOp.write [7]]).map
        (fun wh => mdLog.finalize wh.hasher)
      ≠ (runTokio mdLog closeSink ⟨[], false⟩ [WOp.write [7]]).map
          (fun wh => mdLog.finalize wh.hasher) := by
  decide

/-- C3 (amended): `flush`, `poll_flush`, `poll_close` and `poll_shutdown`
leave the hasher unchanged and feed it no bytes, delegating only to the
inner sink; consequently, inserting any number of such calls between writes
yields the same final result as the run without them whenever the inserted
calls do not change the inner sink's state (so the sink's answers to the
remaining writes are unaffected). -/
theorem C3_flush_close_frame :
    (∀ (D S : Type) (sink : AsyncWriteT S) (wh : WriteHasher D S),
      (tokioPollFlush sink wh).2.hasher = wh.hasher
      ∧ (tokioPollShutdown sink wh).2.hasher = wh.hasher)
    ∧ (∀ (D S : Type) (sink : AsyncWriteF S) (wh : WriteHasher D S),
      (futuresPollFlush sink wh).2.hasher = wh.hasher
      ∧ (futuresPollClose sink wh).2.hasher = wh.hasher)
    ∧ (∀ (D S : Type) (sink : WSink S) (wh : WriteHasher D S),
      (WriteHasher.flush sink wh).2.hasher = wh.hasher)
    ∧ (∀ (D Out S : Type) (md : MinDigest D Out) (sink : AsyncWriteT S),
      (∀ s, (sink.pollFlush s).2 = s) → (∀ s, (sink.pollShutdown s).2 = s) →
      ∀ (ops : List WOp) (wh : WriteHasher D S),
        runTokio md sink wh ops = runTokio md sink wh (dropFlushes ops)) :=
  ⟨fun _ _ _ _ => ⟨rfl, rfl⟩, fun _ _ _ _ => ⟨rfl, rfl⟩, fun _ _ _ _ => rfl,
   fun _ _ _ md sink hf hc ops wh => runTokio_dropFlushes md sink hf hc ops wh⟩

/-- Witness for C3 (amended) at a concrete run over the accept-all tokio
sink, whose flush and shutdown do not change its state. -/
theorem C3_flush_close_frame_witness :
    runTokio mdLog sinkAllT ⟨[], ()⟩ [WOp.flush, WOp.write [5], WOp.close]
      = runTokio mdLog sinkAllT ⟨[], ()⟩
          (dropFlushes [WOp.flush, WOp.write [5], WOp.close]) :=
  C3_flush_close_frame.2.2.2 _ _ _ mdLog sinkAllT (fun _ => rfl)
    (fun _ => rfl) [WOp.flush, WOp.write [5], WOp.close] ⟨[], ()⟩

/-- C4: in both cooperative flavors, `poll_write` returns exactly the value
the inner sink's `poll_write` returned — `Pending` and `Ready(Err)` are
forwarded verbatim with the hasher untouched — and the hasher is updated
with the first `n` offered bytes exactly in the `Ready(Ok n)` case. -/
theorem C4_poll_write_transparent (D Out S : Type) (md : MinDigest D Out)
    (tsink : AsyncWriteT S) (fsink : AsyncWriteF S) (wh : WriteHasher D S)
    (buf : List Nat) :
    (∀ n s₂, tsink.pollWrite wh.inner buf = (Poll.ready (Except.ok n), s₂) →
      n ≤ buf.length →
      tokioPollWrite md tsink wh buf
        = some (Poll.ready (Except.ok n),
                ⟨md.update wh.hasher (buf.take n), s₂⟩))
    ∧ (∀ e s₂,
        tsink.pollWrite wh.inner buf = (Poll.ready (Except.error e), s₂) →
      tokioPollWrite md tsink wh buf
        = some (Poll.ready (Except.error e), ⟨wh.hasher, s₂⟩))
    ∧ (∀ s₂, tsink.pollWrite wh.inner buf = (Poll.pending, s₂) →
      tokioPollWrite md tsink wh buf = some (Poll.pending, ⟨wh.hasher, s₂⟩))
    ∧ (∀ n s₂, fsink.pollWrite wh.inner buf = (Poll.ready (Except.ok n), s₂) →
      n ≤ buf.length →
      futuresPollWrite md fsink wh buf
        = some (Poll.ready (Except.ok n),
                ⟨md.update wh.hasher (buf.take n), s₂⟩))
    ∧ (∀ e s₂,
        fsink.pollWrite wh.inner buf = (Poll.ready (Except.error e), s₂) →
      futuresPollWrite md fsink wh buf
        = some (Poll.ready (Except.error e), ⟨wh.hasher, s₂⟩))
    ∧ (∀ s₂, fsink.pollWrite wh.inner buf = (Poll.pending, s₂) →
      futuresPollWrite md fsink wh buf
        = some (Poll.pending, ⟨wh.hasher, s₂⟩)) :=
  ⟨fun n s₂ h hn => tokioPollWrite_ok md tsink wh buf n s₂ h hn,
   fun e s₂ h => tokioPollWrite_err md tsink wh buf e s₂ h,
   fun s₂ h => tokioPollWrite_pending md tsink wh buf s₂ h,
   fun n s₂ h hn => futuresPollWrite_ok md fsink wh buf n s₂ h hn,
   fun e s₂ h => futuresPollWrite_err md fsink wh buf e s₂ h,
   fun s₂ h => futuresPollWrite_pending md fsink wh buf s₂ h⟩

/-- Witness for C4 at concrete inputs: success, error and pending answers
through concrete sinks of both cooperative flavors. -/
theorem C4_poll_write_transparent_witness :
    tokioPollWrite mdLog sinkAllT ⟨[], ()⟩ [1, 2]
      = some (Poll.ready (Except.ok 2), ⟨[1, 2], ()⟩)
    ∧ tokioPollWrite mdLog errSinkT ⟨[], ()⟩ [1, 2]
      = some (Poll.ready (Except.error 7), ⟨[], ()⟩)
    ∧ tokioPollWrite mdLog pendSinkT ⟨[], ()⟩ [1, 2]
      = some (Poll.pending, ⟨[], ()⟩)
    ∧ futuresPollWrite mdLog sinkAllF ⟨[], ()⟩ [3]
      = some (Poll.ready (Except.ok 1), ⟨[3], ()⟩)
    ∧ futuresPollWrite mdLog errSinkF ⟨[], ()⟩ [3]
      = some (Poll.ready (Except.error 9), ⟨[], ()⟩)
    ∧ futuresPollWrite mdLog pendSinkF ⟨[], ()⟩ [3]
      = some (Poll.pending, ⟨[], ()⟩) :=
  ⟨(C4_poll_write_transparent _ _ _ mdLog sinkAllT sinkAllF ⟨[], ()⟩
      [1, 2]).1 2 () rfl (by decide),
   (C4_poll_write_transparent _ _ _ mdLog errSinkT sinkAllF ⟨[], ()⟩
      [1, 2]).2.1 7 () rfl,
   (C4_poll_write_transparent _ _ _ mdLog pendSinkT sinkAllF ⟨[], ()⟩
      [1, 2]).2.2.1 () rfl,
   (C4_poll_write_transparent _ _ _ mdLog sinkAllT sinkAllF ⟨[], ()⟩
      [3]).2.2.2.1 1 () rfl (by decide),
   (C4_poll_write_transparent _ _ _ mdLog sinkAllT errSinkF ⟨[], ()⟩
      [3]).2.2.2.2.1 9 () rfl,
   (C4_poll_write_transparent _ _ _ mdLog sinkAllT pendSinkF ⟨[], ()⟩
      [3]).2.2.2.2.2 () rfl⟩

/-- C5: the in-tree CRC32C hash has a single 32-bit seed as state; both
`new` and the derived default start it at 0; `update` replaces the seed with
`crc32c_append(seed, data)`; `finalize` returns the seed.  All operations
are total functions, so no operation can fail. -/
theorem C5_crc32c_hash (c : Crc32c) (data : List Nat) (s : Nat) :
    Crc32c.new.seed = 0
    ∧ Crc32c.mkDefault.seed = 0
    ∧ crc32cMinDigest.update c data = ⟨crc32c_append c.seed data⟩
    ∧ crc32cMinDigest.finalize ⟨s⟩ = s :=
  ⟨rfl, rfl, rfl, rfl⟩

/-- C6 counterexample: the configuration enabling exactly `digest` and
`crc32c` is not rejected at build time, although the claim says every
`digest` + per-hash combination (including `crc32c`) is rejected. -/
theorem C6_digest_crc32c_not_rejected :
    cfgDigestCrc32c.digest = true ∧ cfgDigestCrc32c.crc32c = true
    ∧ rejectedAtBuildTime cfgDigestCrc32c = false := by
  decide

/-- C6 (amended): every configuration enabling `digest` together with any of
`concrete_impls`, `sha1`, `sha2`, `md2`, `md4`, `md5`, `blake2`,
`crc32fast` is rejected at build time; `crc32c` is not part of the gate
(its bridge is compiled unconditionally). -/
theorem C6_digest_exclusion (c : Cfg) (hd : c.digest = true)
    (hp : (c.concrete_impls || c.sha1 || c.sha2 || c.md2 || c.md4 || c.md5
        || c.blake2 || c.crc32fast) = true) :
    rejectedAtBuildTime c = true := by
  simp [rejectedAtBuildTime, hd, hp]

/-- Witness for C6 (amended): `digest` + `sha1` is rejected. -/
theorem C6_digest_exclusion_witness :
    rejectedAtBuildTime
      ⟨true, false, true, false, false, false, false, false, false, false,
       false, false, false⟩ = true :=
  C6_digest_exclusion
    ⟨true, false, true, false, false, false, false, false, false, false,
     false, false, false⟩ rfl rfl

/-- C7: under the configuration enabling `sha2` (and `stdio`), two distinct
`new` construction forms are defined for `WriteHasher<Sha256, T>` — the
ungated generic `D: Default` form and the macro-generated sha2-specific form
— not exactly one; the two forms conflict (duplicate inherent definitions),
contradicting the claim. -/
theorem C7_two_new_forms_for_sha256 :
    newFormsDefined cfgSha2Stdio HashTy.sha256 = 2
    ∧ genericNewDefined cfgSha2Stdio HashTy.sha256 = true
    ∧ specificNewDefined cfgSha2Stdio HashTy.sha256 = true
    ∧ newFormsDefined cfgSha2Stdio HashTy.sha256 ≠ 1 := by
  decide

/-- C8: delivering the same byte sequence through the blocking, tokio and
futures flavors over accept-all sinks and finalizing yields the same digest
in all three cases — each equals the finalization of the fold of `update`
over the buffers, for every hasher. -/
theorem C8_flavor_equivalence (D Out : Type) (md : MinDigest D Out) (d : D)
    (bufs : List (List Nat)) :
    (runStdio md sinkAllB ⟨d, ()⟩ (bufs.map StdOp.write)).map
        (fun wh => md.finalize wh.hasher)
      = some (md.finalize (List.foldl md.update d bufs))
    ∧ (runTokio md sinkAllT ⟨d, ()⟩ (bufs.map WOp.write)).map
        (fun wh => md.finalize wh.hasher)
      = some (md.finalize (List.foldl md.update d bufs))
    ∧ (runFutures md sinkAllF ⟨d, ()⟩ (bufs.map WOp.write)).map
        (fun wh => md.finalize wh.hasher)
      = some (md.finalize (List.foldl md.update d bufs)) := by
  refine ⟨?_, ?_, ?_⟩
  · rw [runStdio_sinkAll md bufs d]; rfl
  · rw [runTokio_sinkAll md bufs d]; rfl
  · rw [runFutures_sinkAll md bufs d]; rfl

/-- C9: the `MinDigest` implementation on the adapter itself feeds `update`
data directly to the wrapped hasher, leaves the inner sink untouched (no
bytes are offered to it), and `finalize` returns the wrapped hasher's
finalization; concretely, updating a fresh transcript adapter through this
interface makes the hashed bytes `[1, 2]` while the inner sink saw
nothing. -/
theorem C9_adapter_min_digest (D Out T : Type) (md : MinDigest D Out)
    (wh : WriteHasher D T) (data : List Nat) :
    ((writeHasherMinDigest md).update wh data).hasher
      = md.update wh.hasher data
    ∧ ((writeHasherMinDigest md).update wh data).inner = wh.inner
    ∧ (writeHasherMinDigest md).finalize wh = md.finalize wh.hasher
    ∧ ((writeHasherMinDigest mdLog).update
        (⟨[], []⟩ : WriteHasher (List Nat) (List (List Nat))) [1, 2]).hasher
      = [1, 2]
    ∧ ((writeHasherMinDigest mdLog).update
        (⟨[], []⟩ : WriteHasher (List Nat) (List (List Nat))) [1, 2]).inner
      = [] :=
  ⟨rfl, rfl, rfl, rfl, rfl⟩

/-- C10: every write path slices the offered buffer at the accepted count
reported by the inner sink; when every reported count is within bounds the
operation is panic-free (returns `some`), and a sink reporting
`buf.length + 1` accepted bytes reaches the out-of-bounds branch (`none`). -/
theorem C10_slice_bounds :
    (∀ (D Out S : Type) (md : MinDigest D Out) (sink : WSink S)
        (wh : WriteHasher D S) (buf : List Nat),
      (∀ n s₂, sink.write wh.inner buf = (Except.ok n, s₂) →
        n ≤ buf.length) →
      (WriteHasher.write md sink wh buf).isSome = true)
    ∧ (∀ (D Out S : Type) (md : MinDigest D Out) (sink : AsyncWriteT S)
        (wh : WriteHasher D S) (buf : List Nat),
      (∀ n s₂, sink.pollWrite wh.inner buf = (Poll.ready (Except.ok n), s₂) →
        n ≤ buf.length) →
      (tokioPollWrite md sink wh buf).isSome = true)
    ∧ (∀ (D Out S : Type) (md : MinDigest D Out) (sink : AsyncWriteF S)
        (wh : WriteHasher D S) (buf : List Nat),
      (∀ n s₂, sink.pollWrite wh.inner buf = (Poll.ready (Except.ok n), s₂) →
        n ≤ buf.length) →
      (futuresPollWrite md sink wh buf).isSome = true)
    ∧ WriteHasher.write mdLog oobSink ⟨[], ()⟩ [9] = none := by
  refine ⟨?_, ?_, ?_, ?_⟩
  · intro D Out S md sink wh buf hb
    rcases hsw : sink.write wh.inner buf with ⟨r, s₂⟩
    cases r with
    | ok n => rw [write_ok_of md sink wh buf n s₂ hsw (hb n s₂ hsw)]; rfl
    | error e => rw [write_err_of md sink wh buf e s₂ hsw]; rfl
  · intro D Out S md sink wh buf hb
    rcases hsw : sink.pollWrite wh.inner buf with ⟨r, s₂⟩
    cases r with
    | pending => rw [tokioPollWrite_pending md sink wh buf s₂ hsw]; rfl
    | ready res =>
        cases res with
        | ok n =>
            rw [tokioPollWrite_ok md sink wh buf n s₂ hsw (hb n s₂ hsw)]; rfl
        | error e => rw [tokioPollWrite_err md sink wh buf e s₂ hsw]; rfl
  · intro D Out S md sink wh buf hb
    rcases hsw : sink.pollWrite wh.inner buf with ⟨r, s₂⟩
    cases r with
    | pending => rw [futuresPollWrite_pending md sink wh buf s₂ hsw]; rfl
    | ready res =>
        cases res with
        | ok n =>
            rw [futuresPollWrite_ok md sink wh buf n s₂ hsw (hb n s₂ hsw)]
            rfl
        | error e => rw [futuresPollWrite_err md sink wh buf e s₂ hsw]; rfl
  · exact write_oob_of mdLog oobSink ⟨[], ()⟩ [9] 2 () rfl (by decide)

/-- Witness for C10: the in-bounds part applied to the accept-all blocking
sink at a concrete buffer. -/
theorem C10_slice_bounds_witness :
    (WriteHasher.write mdLog sinkAllB ⟨[], ()⟩ [4, 5]).isSome = true :=
  C10_slice_bounds.1 _ _ _ mdLog sinkAllB ⟨[], ()⟩ [4, 5]
    (fun n s₂ h => sinkAllB_bounded () [4, 5] n s₂ h)

end HashWriter
